import Mathlib

/-!
Shallow embedding of `src/msk_modelling_python/workflow.py`.

The module implements a workflow engine: `WorkflowNode` wraps one task
function with static inputs and outgoing edges; `Pipeline` owns a
name-keyed node table, a designated start node, a shared mutable context
and an execution log; `Pipeline.execute` runs a depth-first traversal
from the start node.

Embedding choices:
- Python dicts are insertion-ordered association lists over `String`
  keys (`alookup` takes the first match, `ainsert` replaces in place or
  appends, mirroring dict item assignment).
- Values stored in a context are a small inductive `Val`; a task
  returns either a mapping or a plain value (`PyVal`), or raises,
  modelled as `Except String`.
- `datetime.now()` is a logical clock: a `Nat` threaded through the
  computation and incremented at each call.
- Object references (`next_nodes`, `start_node`, the node table) are
  replaced by node names resolved in the pipeline node table; all the
  graphs in this development are built through `Pipeline.connect`, for
  which the two representations agree.
- The mutable fields of the Python objects (node status, outputs,
  error, timestamps; pipeline context, log, status) are carried in
  explicit state records (`NodeState`, `ExecState`, `PipelineRun`) so
  that repeated `execute` calls can be expressed.
- The recursion of `Pipeline._execute_node` is expressed as a single
  total function `Pipeline.execute_nodes` over an explicit worklist of
  sibling node names, with a fuel parameter standing for the Python
  call stack (running out of fuel raises, like RecursionError, and is
  caught at top level like any other exception; `execute` supplies
  fuel that is never exhausted on the graphs considered here).
- The `print` calls at the start of each node invocation (line 229 of
  the source) are recorded in a `trace` list: one entry per node
  invocation attempt, which makes "the task of node X is invoked
  exactly once" an observable statement.
-/

/-- A value stored in a context dictionary. -/
inductive Val where
  | vnat : Nat → Val
  | vstr : String → Val
  | vbool : Bool → Val
deriving Repr, DecidableEq

/-- A Python dict from strings to values, as an insertion-ordered association list. -/
abbrev Dict := List (String × Val)

/-- First-match lookup in an association list, the semantics of `d[k]` on a
dict whose keys are unique. -/
def alookup {α : Type} : List (String × α) → String → Option α
  | [], _ => none
  | (k0, v0) :: rest, k => if k0 = k then some v0 else alookup rest k

/-- Dict item assignment `d[k] = v`: replace the value in place when the key
is present, append otherwise. -/
def ainsert {α : Type} : List (String × α) → String → α → List (String × α)
  | [], k, v => [(k, v)]
  | (k0, v0) :: rest, k, v =>
      if k0 = k then (k0, v) :: rest else (k0, v0) :: ainsert rest k v

/-- Python `d.update(patch)` and the overlay `{**d, **patch}`: assign every
item of `patch` into `d`, in order. -/
def dupdate (d : Dict) (patch : Dict) : Dict :=
  patch.foldl (fun acc kv => ainsert acc kv.1 kv.2) d

/-- Membership test `k in d`. -/
def dhas (d : Dict) (k : String) : Bool :=
  (alookup d k).isSome

/-- What a Python task function can return: a dict, or any other value. -/
inductive PyVal where
  | dict : Dict → PyVal
  | plain : Val → PyVal
deriving Repr, DecidableEq

/-- One declared parameter of a task function, as seen through
`inspect.signature`: its name and whether it has a default. -/
structure Param where
  name : String
  hasDefault : Bool
deriving Repr, DecidableEq

/-- A task function: its declared parameters and its body, which receives
the keyword arguments actually passed and either returns or raises. -/
structure TaskFn where
  params : List Param
  run : Dict → Except String PyVal

/-- Calling a Python function with keyword arguments `self.function(**kwargs)`:
raises TypeError when a keyword does not match a declared parameter or when a
parameter without a default is missing, otherwise runs the body. -/
def callTask (t : TaskFn) (kwargs : Dict) : Except String PyVal :=
  if kwargs.any (fun kv => !(t.params.any (fun p => p.name == kv.1))) then
    Except.error "unexpected keyword argument"
  else if t.params.any (fun p => !p.hasDefault && !(dhas kwargs p.name)) then
    Except.error "missing required positional argument"
  else t.run kwargs

/-- The filtering loop of `WorkflowNode.execute` (workflow.py lines 76-83):
walk the declared parameters in order and keep exactly those that occur in
the effective input mapping; a parameter with a default that is absent is
skipped, and a required absent parameter is left for the call to reject. -/
def filterInputs : List Param → Dict → Dict
  | [], _ => []
  | p :: rest, ei =>
      match alookup ei p.name with
      | some v => (p.name, v) :: filterInputs rest ei
      | none => filterInputs rest ei

/-- The mutable runtime fields of a `WorkflowNode` (workflow.py lines 40-44).
Statuses are the literal strings used by the source. -/
structure NodeState where
  status : String
  error : Option String
  outputs : Dict
  startTime : Option Nat
  endTime : Option Nat
deriving Repr, DecidableEq

/-- The state a node has right after `WorkflowNode.__init__`. -/
def NodeState.init : NodeState :=
  ⟨"pending", none, [], none, none⟩

/-- `WorkflowNode.get_execution_time` (lines 100-104). -/
def NodeState.get_execution_time (s : NodeState) : Option Nat :=
  match s.startTime, s.endTime with
  | some a, some b => some (b - a)
  | _, _ => none

/-- The immutable part of a workflow node: name, task, static inputs,
description, and the ordered successor list built by `connect_to`. -/
structure WorkflowNode where
  name : String
  function : TaskFn
  inputs : Dict
  description : String
  nextNodes : List String

/-- `WorkflowNode.connect_to` (lines 47-50): append the successor unless it
is already present. -/
def WorkflowNode.connect_to (n : WorkflowNode) (other : String) : WorkflowNode :=
  if other ∈ n.nextNodes then n
  else { n with nextNodes := n.nextNodes ++ [other] }

/-- `WorkflowNode.execute` (lines 52-98): mark the node running, build the
effective inputs by overlaying the static inputs on the context, filter them
by the declared parameter names, call the task, and either record the
coerced outputs with status completed, or record the failure and re-raise a
wrapped message. Returns the updated node state, the advanced clock, and
the outcome. -/
def WorkflowNode.execute (n : WorkflowNode) (prev : NodeState) (context : Dict)
    (clock : Nat) : NodeState × Nat × Except String Dict :=
  let running : NodeState := { prev with status := "running", startTime := some clock }
  let executionInputs := dupdate context n.inputs
  let filtered := filterInputs n.function.params executionInputs
  match callTask n.function filtered with
  | Except.ok ret =>
      let outs : Dict :=
        match ret with
        | PyVal.dict d => d
        | PyVal.plain v => [("result", v)]
      ({ running with status := "completed", outputs := outs, endTime := some (clock + 1) },
       clock + 2, Except.ok outs)
  | Except.error e =>
      ({ running with status := "failed", error := some e, endTime := some (clock + 1) },
       clock + 2, Except.error ("Node " ++ n.name ++ " failed: " ++ e))

/-- A record of `execution_log` (lines 241-246 and 256-261): a completed
entry carries the execution time, a failed entry carries the error text. -/
structure LogEntry where
  timestamp : Nat
  node : String
  status : String
  executionTime : Option Nat
  error : Option String
deriving Repr, DecidableEq

/-- The immutable part of a `Pipeline`: metadata, the insertion-ordered
node table, and the designated start node name. -/
structure Pipeline where
  name : String
  description : String
  nodes : List (String × WorkflowNode)
  startNode : Option String

/-- A pipeline as `Pipeline.__init__` leaves it, before any node is added. -/
def emptyPipeline (name : String) : Pipeline :=
  ⟨name, "", [], none⟩

/-- `Pipeline.add_node` (lines 140-154): store the node under its name in
the node table (overwriting any previous entry with that name - the source
performs a plain dict assignment and contains no duplicate check), and make
it the start node when `isStart` is true or no start node exists yet. -/
def Pipeline.add_node (p : Pipeline) (node : WorkflowNode) (isStart : Bool) : Pipeline :=
  { p with
    nodes := ainsert p.nodes node.name node,
    startNode := if isStart || p.startNode.isNone then some node.name else p.startNode }

/-- `Pipeline.connect` (lines 156-173): raise ValueError when either name is
absent, otherwise add the edge on the source node. -/
def Pipeline.connect (p : Pipeline) (fromName toName : String) : Except String Pipeline :=
  match alookup p.nodes fromName with
  | none => Except.error ("Node " ++ fromName ++ " not found in pipeline")
  | some fromNode =>
      match alookup p.nodes toName with
      | none => Except.error ("Node " ++ toName ++ " not found in pipeline")
      | some _ =>
          Except.ok { p with nodes := ainsert p.nodes fromName (fromNode.connect_to toName) }

/-- The state threaded through one traversal: the per-node runtime states,
the shared context, the log, the trace of node invocation attempts (the
print at line 229), and the clock. -/
structure ExecState where
  nodeStates : List (String × NodeState)
  context : Dict
  log : List LogEntry
  trace : List String
  clock : Nat
deriving Repr, DecidableEq

/-- `Pipeline._execute_node` (lines 224-267), with the implicit call stack
made explicit: `execute_nodes p fuel names soe st` executes the sibling
worklist `names` in order, where a call `self._execute_node(n)` of the
source corresponds to the head of the worklist. A node whose status is
already completed is skipped outright (the early return at line 226); a
node absent from the table cannot arise through `connect` and is skipped.
On task success the outputs are merged into the context, a completed entry
is logged, and the successors are traversed inside the same try block, so a
failure propagating out of a descendant is caught here, logged as a failed
entry for THIS node and re-raised when `stopOnError` holds. On task failure
a failed entry is logged and the failure is re-raised only when
`stopOnError` holds. Every recursive call decrements the fuel, which keeps
the recursion structural; running out of fuel raises, like RecursionError
in the source, and the fuel supplied by `execute` exceeds the length of any
path in the call tree, so it is never exhausted there (the traversal enters
the successor loop of a node at most once, when the node completes). -/
def Pipeline.execute_nodes (p : Pipeline) :
    Nat → List String → Bool → ExecState → ExecState × Except String Unit
  | _, [], _, st => (st, Except.ok ())
  | 0, _ :: _, _, st => (st, Except.error "maximum recursion depth exceeded")
  | Nat.succ fuel1, nodeName :: rest, stopOnError, st =>
      match alookup p.nodes nodeName with
      | none => Pipeline.execute_nodes p fuel1 rest stopOnError st
      | some node =>
          let ns := (alookup st.nodeStates nodeName).getD NodeState.init
          if ns.status = "completed" then
            Pipeline.execute_nodes p fuel1 rest stopOnError st
          else
            let st0 := { st with trace := st.trace ++ [nodeName] }
            match node.execute ns st0.context st0.clock with
            | (ns1, clock1, Except.ok outs) =>
                let entry : LogEntry :=
                  ⟨clock1, nodeName, "completed", ns1.get_execution_time, none⟩
                let st1 : ExecState :=
                  { st0 with
                    nodeStates := ainsert st0.nodeStates nodeName ns1,
                    context := dupdate st0.context outs,
                    log := st0.log ++ [entry],
                    clock := clock1 + 1 }
                match Pipeline.execute_nodes p fuel1 node.nextNodes stopOnError st1 with
                | (st2, Except.ok _) =>
                    Pipeline.execute_nodes p fuel1 rest stopOnError st2
                | (st2, Except.error e) =>
                    let entry2 : LogEntry := ⟨st2.clock, nodeName, "failed", none, some e⟩
                    let st3 := { st2 with log := st2.log ++ [entry2], clock := st2.clock + 1 }
                    if stopOnError then (st3, Except.error e)
                    else Pipeline.execute_nodes p fuel1 rest stopOnError st3
            | (ns1, clock1, Except.error e) =>
                let entry : LogEntry := ⟨clock1, nodeName, "failed", none, some e⟩
                let st1 : ExecState :=
                  { st0 with
                    nodeStates := ainsert st0.nodeStates nodeName ns1,
                    log := st0.log ++ [entry],
                    clock := clock1 + 1 }
                if stopOnError then (st1, Except.error e)
                else Pipeline.execute_nodes p fuel1 rest stopOnError st1

/-- Total number of edges of the graph. -/
def edgeCount (p : Pipeline) : Nat :=
  p.nodes.foldl (fun a kv => a + kv.2.nextNodes.length) 0

/-- The per-node snapshot produced by `WorkflowNode.to_dict` (lines 106-115). -/
structure NodeSnapshot where
  name : String
  description : String
  status : String
  executionTime : Option Nat
  error : Option String
  outputs : Dict
deriving Repr, DecidableEq

/-- `WorkflowNode.to_dict` over a node and its runtime state. -/
def WorkflowNode.to_dict (n : WorkflowNode) (s : NodeState) : NodeSnapshot :=
  ⟨n.name, n.description, s.status, s.get_execution_time, s.error, s.outputs⟩

/-- The dictionary returned by `Pipeline.execute` (lines 216-222). -/
structure ExecutionResult where
  status : String
  totalTime : Nat
  nodes : List (String × NodeSnapshot)
  executionLog : List LogEntry
  finalContext : Dict
deriving Repr, DecidableEq

/-- A degenerate result, used only to give total wrappers a value on the
error branch of `execute`. -/
def ExecutionResult.empty : ExecutionResult :=
  ⟨"", 0, [], [], []⟩

/-- The mutable fields of a `Pipeline` object together with the mutable
fields of all its nodes, as they persist between calls to `execute`. -/
structure PipelineRun where
  nodeStates : List (String × NodeState)
  context : Dict
  executionLog : List LogEntry
  pstatus : String
deriving Repr, DecidableEq

/-- The runtime state right after the pipeline and its nodes are built:
every node pending, empty context and log, pipeline status ready. -/
def Pipeline.initRun (p : Pipeline) : PipelineRun :=
  ⟨p.nodes.map (fun kv => (kv.1, NodeState.init)), [], [], "ready"⟩

/-- `Pipeline.execute` (lines 175-222): raise ValueError when no start node
is set; otherwise reset the context to the initial context and the log to
empty (the node states are NOT reset - the source never touches them here),
traverse from the start node catching any propagated failure, set the
pipeline status to completed or failed accordingly, and return the result
dictionary together with the updated mutable state, the trace and the
clock. -/
def Pipeline.execute (p : Pipeline) (run : PipelineRun) (initialContext : Dict)
    (stopOnError : Bool) (clock : Nat) :
    Except String (ExecutionResult × PipelineRun × List String × Nat) :=
  match p.startNode with
  | none => Except.error "No start node defined for pipeline"
  | some startName =>
      let startTime := clock
      let st0 : ExecState := ⟨run.nodeStates, initialContext, [], [], clock + 1⟩
      let stres :=
        Pipeline.execute_nodes p (p.nodes.length + edgeCount p + 2) [startName] stopOnError st0
      let st1 := stres.1
      let finalStatus :=
        match stres.2 with
        | Except.ok _ => "completed"
        | Except.error _ => "failed"
      let totalTime := st1.clock - startTime
      let result : ExecutionResult :=
        ⟨finalStatus, totalTime,
         p.nodes.map (fun kv =>
           (kv.1, kv.2.to_dict ((alookup st1.nodeStates kv.1).getD NodeState.init))),
         st1.log, st1.context⟩
      Except.ok (result, ⟨st1.nodeStates, st1.context, st1.log, finalStatus⟩,
                 st1.trace, st1.clock + 1)

/-- A task with no declared parameters whose body returns a fixed dict. -/
def retTask (d : Dict) : TaskFn :=
  ⟨[], fun _ => Except.ok (PyVal.dict d)⟩

/-- A task with no declared parameters whose body returns a plain
(non-mapping) value. -/
def constTask (v : Val) : TaskFn :=
  ⟨[], fun _ => Except.ok (PyVal.plain v)⟩

/-- A task with no declared parameters whose body always raises. -/
def failTask (msg : String) : TaskFn :=
  ⟨[], fun _ => Except.error msg⟩

/-- A freshly constructed node: no static inputs, empty description, no
outgoing edges. -/
def mkNode (name : String) (t : TaskFn) : WorkflowNode :=
  ⟨name, t, [], "", []⟩

/-- Total wrapper around `Pipeline.connect` for building graphs whose node
names are known to exist (the error branch is never taken below). -/
def connectOr (p : Pipeline) (a b : String) : Pipeline :=
  match p.connect a b with
  | Except.ok q => q
  | Except.error _ => p

/-- Execute a freshly built pipeline once from its initial runtime state. -/
def execFresh (p : Pipeline) (ctx : Dict) (soe : Bool) :
    ExecutionResult × PipelineRun × List String × Nat :=
  match p.execute p.initRun ctx soe 0 with
  | Except.ok r => r
  | Except.error _ => (ExecutionResult.empty, p.initRun, [], 0)

/-- Graph for the stop-on-error-false scenario: S feeds F and H in that
order, F feeds G, and the task of F always raises. -/
def pSwallow (vS : Val) (m : String) (vG vH : Val) : Pipeline :=
  connectOr (connectOr (connectOr
    (((((emptyPipeline "p1").add_node (mkNode "S" (constTask vS)) true).add_node
        (mkNode "F" (failTask m)) false).add_node
        (mkNode "G" (constTask vG)) false).add_node
        (mkNode "H" (constTask vH)) false)
    "S" "F") "F" "G") "S" "H"

/-- Three-node chain A feeds B feeds C where the task of B always raises. -/
def pChainBfail (vA : Val) (m : String) (vC : Val) : Pipeline :=
  connectOr (connectOr
    ((((emptyPipeline "chain").add_node (mkNode "A" (constTask vA)) true).add_node
        (mkNode "B" (failTask m)) false).add_node
        (mkNode "C" (constTask vC)) false)
    "A" "B") "B" "C"

/-- Graph for the completed-skip scenario: S feeds F then B, B feeds F,
F feeds G, and the task of G always raises. -/
def pRevisit (vS vF vB : Val) (m : String) : Pipeline :=
  connectOr (connectOr (connectOr (connectOr
    (((((emptyPipeline "p5").add_node (mkNode "S" (constTask vS)) true).add_node
        (mkNode "F" (constTask vF)) false).add_node
        (mkNode "B" (constTask vB)) false).add_node
        (mkNode "G" (failTask m)) false)
    "S" "F") "S" "B") "B" "F") "F" "G"

/-- Diamond graph: S feeds P and Q, and both P and Q feed F. -/
def pDiamond (vS vP vQ vF : Val) : Pipeline :=
  connectOr (connectOr (connectOr (connectOr
    (((((emptyPipeline "diamond").add_node (mkNode "S" (constTask vS)) true).add_node
        (mkNode "P" (constTask vP)) false).add_node
        (mkNode "Q" (constTask vQ)) false).add_node
        (mkNode "F" (constTask vF)) false)
    "S" "P") "S" "Q") "P" "F") "Q" "F"

/-- Single-node pipeline. -/
def pSingle (v : Val) : Pipeline :=
  (emptyPipeline "single").add_node (mkNode "A" (constTask v)) true

/-- Execute a pipeline twice in sequence, threading the mutable state of the
first call into the second; returns the result and trace of the second call. -/
def execTwice (p : Pipeline) : ExecutionResult × List String :=
  match p.execute p.initRun [] true 0 with
  | Except.ok (_, run1, _, c1) =>
      match p.execute run1 [] true c1 with
      | Except.ok (r2, _, tr2, _) => (r2, tr2)
      | Except.error _ => (ExecutionResult.empty, [])
  | Except.error _ => (ExecutionResult.empty, [])

/-- The ExecutionResult of a fresh execution. -/
def freshResult (p : Pipeline) (ctx : Dict) (soe : Bool) : ExecutionResult :=
  (execFresh p ctx soe).1

/-- The invocation trace of a fresh execution: the node names printed by the
line-229 print, one per invocation attempt, in order. -/
def freshTrace (p : Pipeline) (ctx : Dict) (soe : Bool) : List String :=
  (execFresh p ctx soe).2.2.1

/-- The status recorded for one node in a result snapshot. -/
def statusOf (r : ExecutionResult) (name : String) : Option String :=
  (alookup r.nodes name).map NodeSnapshot.status

/-- The diamond graph with its edges declared in the opposite order, so the
traversal reaches F through Q first. -/
def pDiamondRev (vS vP vQ vF : Val) : Pipeline :=
  connectOr (connectOr (connectOr (connectOr
    (((((emptyPipeline "diamond").add_node (mkNode "S" (constTask vS)) true).add_node
        (mkNode "P" (constTask vP)) false).add_node
        (mkNode "Q" (constTask vQ)) false).add_node
        (mkNode "F" (constTask vF)) false)
    "S" "Q") "S" "P") "Q" "F") "P" "F"

/-- First node registered under the name n. -/
def nodeDup1 : WorkflowNode :=
  ⟨"n", constTask (Val.vnat 1), [], "first", []⟩

/-- Second node registered under the same name n. -/
def nodeDup2 : WorkflowNode :=
  ⟨"n", constTask (Val.vnat 2), [], "second", []⟩

/-- A pipeline to which two nodes with the same name are added in turn. -/
def pDup : Pipeline :=
  ((emptyPipeline "dup").add_node nodeDup1 true).add_node nodeDup2 false

/-- A task declaring exactly the parameters a and b, both required, whose
body returns the keyword arguments it received. -/
def taskAB : TaskFn :=
  ⟨[⟨"a", false⟩, ⟨"b", false⟩], fun d => Except.ok (PyVal.dict d)⟩

/-- A node around `taskAB` with the static input b bound to 2. -/
def nodeAB : WorkflowNode :=
  ⟨"ab", taskAB, [("b", Val.vnat 2)], "", []⟩

/-- A context holding the keys a, b, c and d. -/
def ctxABCD : Dict :=
  [("a", Val.vnat 1), ("b", Val.vnat 9), ("c", Val.vnat 3), ("d", Val.vnat 4)]

/-- A single always-failing node, used to instantiate step lemmas. -/
def nodeFailW : WorkflowNode :=
  mkNode "F" (failTask "boom")

/-- A pipeline holding only `nodeFailW`. -/
def pFailW : Pipeline :=
  (emptyPipeline "w").add_node nodeFailW true

/-- An execution state in which node F is still pending. -/
def stPendingW : ExecState :=
  ⟨[("F", NodeState.init)], [], [], [], 0⟩

/-- An execution state in which node F is already completed. -/
def stCompletedW : ExecState :=
  ⟨[("F", ⟨"completed", none, [], none, none⟩)], [], [], [], 0⟩

/-- A node around a task returning the plain value 5, used to instantiate
the output-wrapping theorem. -/
def nodeW8 : WorkflowNode :=
  mkNode "W" (constTask (Val.vnat 5))

/-- A pipeline runtime state in which node F is already completed, as a
previous `execute` call would leave it. -/
def runCompletedW : PipelineRun :=
  ⟨[("F", ⟨"completed", none, [], none, none⟩)], [], [], "completed"⟩

/-- Looking up after an assignment: the assigned key reads back the new
value, every other key is unaffected. -/
theorem alookup_ainsert {α : Type} (d : List (String × α)) (k : String) (v : α)
    (k1 : String) :
    alookup (ainsert d k v) k1 = if k = k1 then some v else alookup d k1 := by
  induction d with
  | nil =>
      by_cases h : k = k1 <;> simp [ainsert, alookup, h]
  | cons kv rest ih =>
      obtain ⟨k0, v0⟩ := kv
      by_cases h0 : k0 = k <;> by_cases h1 : k = k1 <;> by_cases h2 : k0 = k1 <;>
        simp_all [ainsert, alookup]

/-- A successful lookup means the key occurs in the list. -/
theorem alookup_mem_keys {α : Type} {d : List (String × α)} {k : String} {v : α}
    (h : alookup d k = some v) : k ∈ d.map Prod.fst := by
  induction d with
  | nil => simp [alookup] at h
  | cons kv rest ih =>
      obtain ⟨k0, v0⟩ := kv
      by_cases h0 : k0 = k
      · subst h0; simp
      · rw [alookup, if_neg h0] at h
        exact List.mem_cons_of_mem _ (ih h)

/-- Lookup through a dict update: keys of the patch win, all other keys
fall through to the base dict. The patch is assumed to have unique keys,
which every Python dict satisfies. -/
theorem alookup_dupdate (c : Dict) (patch : Dict)
    (hp : (patch.map Prod.fst).Nodup) (k : String) :
    alookup (dupdate c patch) k =
      match alookup patch k with
      | some v => some v
      | none => alookup c k := by
  induction patch generalizing c with
  | nil => simp [dupdate, alookup]
  | cons kv rest ih =>
      obtain ⟨k0, v0⟩ := kv
      rw [List.map_cons, List.nodup_cons] at hp
      obtain ⟨hp0, hp1⟩ := hp
      have hstep : dupdate c ((k0, v0) :: rest) = dupdate (ainsert c k0 v0) rest := by
        simp [dupdate]
      rw [hstep, ih (ainsert c k0 v0) hp1]
      by_cases hk : k0 = k
      · subst hk
        cases halt : alookup rest k0 with
        | some w => exact absurd (alookup_mem_keys halt) hp0
        | none => simp [alookup, alookup_ainsert]
      · cases halt : alookup rest k with
        | some w => simp [alookup, halt, hk]
        | none => simp [alookup, halt, hk, alookup_ainsert]

/-- Lookup in the filtered inputs: a declared parameter name reads through
to the effective inputs, any other key is absent. -/
theorem alookup_filterInputs (params : List Param) (ei : Dict) (k : String) :
    alookup (filterInputs params ei) k =
      if ∃ p ∈ params, p.name = k then alookup ei k else none := by
  induction params with
  | nil => simp [filterInputs, alookup]
  | cons p rest ih =>
      by_cases hk : p.name = k
      · cases he : alookup ei p.name with
        | some v =>
            subst hk
            simp [filterInputs, he, alookup]
        | none =>
            subst hk
            rw [filterInputs, he, ih]
            by_cases hrest : ∃ q ∈ rest, q.name = p.name <;>
              simp [hrest, he]
      · cases he : alookup ei p.name with
        | some v =>
            rw [filterInputs, he, alookup, if_neg hk, ih]
            simp [List.exists_mem_cons_iff, hk]
        | none =>
            rw [filterInputs, he, ih]
            simp [List.exists_mem_cons_iff, hk]

/-- Every key of the filtered inputs is a declared parameter name. -/
theorem mem_filterInputs {params : List Param} {ei : Dict} {kv : String × Val}
    (h : kv ∈ filterInputs params ei) : ∃ p ∈ params, p.name = kv.1 := by
  induction params with
  | nil => simp [filterInputs] at h
  | cons p rest ih =>
      cases he : alookup ei p.name with
      | some v =>
          rw [filterInputs, he] at h
          rcases List.mem_cons.mp h with h1 | h1
          · exact ⟨p, List.mem_cons_self p rest, by rw [h1]⟩
          · obtain ⟨q, hq, hq1⟩ := ih h1
            exact ⟨q, List.mem_cons_of_mem _ hq, hq1⟩
      | none =>
          rw [filterInputs, he] at h
          obtain ⟨q, hq, hq1⟩ := ih h
          exact ⟨q, List.mem_cons_of_mem _ hq, hq1⟩

/-- The keyword arguments built by the filtering loop never contain a key
that the task does not declare, so the unexpected-keyword branch of a call
is never taken. -/
theorem filterInputs_declared (params : List Param) (ei : Dict) :
    ((filterInputs params ei).any
        fun kv => !(params.any fun p => p.name == kv.1)) = false := by
  rw [List.any_eq_false]
  intro kv hkv
  obtain ⟨p, hp, hpe⟩ := mem_filterInputs hkv
  simp only [Bool.not_eq_true', Bool.not_eq_false]
  rw [List.any_eq_true]
  exact ⟨p, hp, by simp [hpe]⟩

/-- The early return of `_execute_node` (line 226): when the head node of
the worklist is already completed (or absent from the table), it is skipped
without an invocation attempt, without touching the state, and without
descending into its successors; traversal continues with the remaining
worklist. -/
theorem execute_nodes_skip (p : Pipeline) (fuel1 : Nat) (name : String)
    (rest : List String) (soe : Bool) (st : ExecState)
    (h : ((alookup st.nodeStates name).getD NodeState.init).status = "completed") :
    Pipeline.execute_nodes p (Nat.succ fuel1) (name :: rest) soe st =
      Pipeline.execute_nodes p fuel1 rest soe st := by
  cases hl : alookup p.nodes name with
  | none => simp [Pipeline.execute_nodes, hl]
  | some node => simp [Pipeline.execute_nodes, hl, h]

/-- C3: FAILS on the code as stated; amended version. `execute` resets the
context and the execution log, but the node states are never reset: they
persist on the node objects. Hence whenever the start node is still marked
completed from an earlier call, a repeated `execute` skips it immediately:
it re-invokes nothing, produces an empty log and an empty trace, leaves
every node state unchanged, and returns the initial context as the final
context. -/
theorem C3_state_persists_across_execute (p : Pipeline) (run : PipelineRun)
    (ctx : Dict) (soe : Bool) (clock : Nat) (s : String)
    (h1 : p.startNode = some s)
    (h2 : ((alookup run.nodeStates s).getD NodeState.init).status = "completed") :
    p.execute run ctx soe clock = Except.ok
      (⟨"completed", 1,
        p.nodes.map (fun kv =>
          (kv.1, kv.2.to_dict ((alookup run.nodeStates kv.1).getD NodeState.init))),
        [], ctx⟩,
       ⟨run.nodeStates, ctx, [], "completed"⟩, [], clock + 2) := by
  have hrun : Pipeline.execute_nodes p (p.nodes.length + edgeCount p + 2) [s] soe
      ⟨run.nodeStates, ctx, [], [], clock + 1⟩ =
      (⟨run.nodeStates, ctx, [], [], clock + 1⟩, Except.ok ()) := by
    rw [show p.nodes.length + edgeCount p + 2 =
          Nat.succ (p.nodes.length + edgeCount p + 1) from rfl]
    rw [execute_nodes_skip p _ s [] soe _ h2]
    simp [Pipeline.execute_nodes]
  simp only [Pipeline.execute, h1, hrun]
  simp [Nat.add_sub_cancel_left]

/-- C3 witness: the persistence theorem applied to the one-node pipeline
whose node F is left completed by an earlier run. -/
theorem C3_witness :
    pFailW.startNode = some "F" ∧
    ((alookup runCompletedW.nodeStates "F").getD NodeState.init).status = "completed" ∧
    pFailW.execute runCompletedW [("k", Val.vnat 1)] true 5 = Except.ok
      (⟨"completed", 1,
        pFailW.nodes.map (fun kv =>
          (kv.1, kv.2.to_dict ((alookup runCompletedW.nodeStates kv.1).getD NodeState.init))),
        [], [("k", Val.vnat 1)]⟩,
       ⟨runCompletedW.nodeStates, [("k", Val.vnat 1)], [], "completed"⟩, [], 7) :=
  ⟨rfl, rfl,
   C3_state_persists_across_execute pFailW runCompletedW [("k", Val.vnat 1)] true 5 "F" rfl rfl⟩

/-- C3 counterexample to the claim as stated: executing the one-node
pipeline twice does NOT re-invoke the node. The second call returns an
empty execution log and an empty invocation trace, while the node still
carries the completed status and the stale outputs of the first run; the
claim predicts a fresh invocation and hence a nonempty log. -/
theorem C3_counterexample :
    (execTwice (pSingle (Val.vnat 7))).1.executionLog = [] ∧
    (execTwice (pSingle (Val.vnat 7))).2 = [] ∧
    statusOf (execTwice (pSingle (Val.vnat 7))).1 "A" = some "completed" ∧
    (execTwice (pSingle (Val.vnat 7))).1.status = "completed" :=
  ⟨rfl, rfl, rfl, rfl⟩

/-- C10: whenever a start node is set, `execute` never raises: it returns
an ExecutionResult whose status is the string completed or the string
failed, the propagated task failure having been caught at top level. -/
theorem C10_execute_never_raises (p : Pipeline) (run : PipelineRun) (ctx : Dict)
    (soe : Bool) (clock : Nat) (s : String) (h : p.startNode = some s) :
    ∃ r run2 tr c2, p.execute run ctx soe clock = Except.ok (r, run2, tr, c2) ∧
      (r.status = "completed" ∨ r.status = "failed") := by
  cases hres : Pipeline.execute_nodes p (p.nodes.length + edgeCount p + 2) [s] soe
      ⟨run.nodeStates, ctx, [], [], clock + 1⟩ with
  | mk st1 res =>
      cases res with
      | ok u =>
          refine ⟨⟨"completed", st1.clock - clock,
              p.nodes.map (fun kv =>
                (kv.1, kv.2.to_dict ((alookup st1.nodeStates kv.1).getD NodeState.init))),
              st1.log, st1.context⟩,
            ⟨st1.nodeStates, st1.context, st1.log, "completed"⟩,
            st1.trace, st1.clock + 1, ?_, Or.inl rfl⟩
          simp only [Pipeline.execute, h, hres]
      | error e =>
          refine ⟨⟨"failed", st1.clock - clock,
              p.nodes.map (fun kv =>
                (kv.1, kv.2.to_dict ((alookup st1.nodeStates kv.1).getD NodeState.init))),
              st1.log, st1.context⟩,
            ⟨st1.nodeStates, st1.context, st1.log, "failed"⟩,
            st1.trace, st1.clock + 1, ?_, Or.inr rfl⟩
          simp only [Pipeline.execute, h, hres]

/-- C10 witness: the totality theorem applied to the fresh one-node pipeline. -/
theorem C10_witness :
    (pSingle (Val.vnat 5)).startNode = some "A" ∧
    (∃ r run2 tr c2,
      (pSingle (Val.vnat 5)).execute (pSingle (Val.vnat 5)).initRun [] true 0 =
        Except.ok (r, run2, tr, c2) ∧
      (r.status = "completed" ∨ r.status = "failed")) :=
  ⟨rfl, C10_execute_never_raises (pSingle (Val.vnat 5)) (pSingle (Val.vnat 5)).initRun
      [] true 0 "A" rfl⟩

/-- C1: FAILS on the code as stated; amended version. With stopOnError
false, a failing node swallows the failure: the node is marked failed, one
failed log entry is appended, the context is unchanged (no outputs are
merged), and the traversal does NOT descend into the successors of the
failed node - it continues directly with the remaining worklist (the
siblings at the enclosing levels). -/
theorem C1_swallow_skips_successors (p : Pipeline) (fuel1 : Nat) (name : String)
    (rest : List String) (st : ExecState) (node : WorkflowNode)
    (ns1 : NodeState) (clock1 : Nat) (e : String)
    (hlook : alookup p.nodes name = some node)
    (hstat : ((alookup st.nodeStates name).getD NodeState.init).status ≠ "completed")
    (hexec : node.execute ((alookup st.nodeStates name).getD NodeState.init)
        st.context st.clock = (ns1, clock1, Except.error e)) :
    Pipeline.execute_nodes p (Nat.succ fuel1) (name :: rest) false st =
      Pipeline.execute_nodes p fuel1 rest false
        { st with
          trace := st.trace ++ [name],
          nodeStates := ainsert st.nodeStates name ns1,
          log := st.log ++ [⟨clock1, name, "failed", none, some e⟩],
          clock := clock1 + 1 } := by
  simp only [Pipeline.execute_nodes, hlook, if_neg hstat, hexec]
  simp

/-- C1 witness: the swallow theorem applied to the one-node pipeline whose
task always raises, starting from a pending state. -/
theorem C1_witness :
    alookup pFailW.nodes "F" = some nodeFailW ∧
    ((alookup stPendingW.nodeStates "F").getD NodeState.init).status ≠ "completed" ∧
    nodeFailW.execute ((alookup stPendingW.nodeStates "F").getD NodeState.init)
        stPendingW.context stPendingW.clock =
      (⟨"failed", some "boom", [], some 0, some 1⟩, 2,
       Except.error "Node F failed: boom") ∧
    Pipeline.execute_nodes pFailW (Nat.succ 0) ["F"] false stPendingW =
      Pipeline.execute_nodes pFailW 0 [] false
        { stPendingW with
          trace := stPendingW.trace ++ ["F"],
          nodeStates := ainsert stPendingW.nodeStates "F"
            ⟨"failed", some "boom", [], some 0, some 1⟩,
          log := stPendingW.log ++ [⟨2, "F", "failed", none, some "Node F failed: boom"⟩],
          clock := 2 + 1 } :=
  ⟨rfl, by decide, rfl,
   C1_swallow_skips_successors pFailW 0 "F" [] stPendingW nodeFailW
     ⟨"failed", some "boom", [], some 0, some 1⟩ 2 "Node F failed: boom"
     rfl (by decide) rfl⟩

/-- C1 counterexample to the claim as stated: in the graph where S feeds F
and H, F feeds G, and F always raises, executing with stopOnError false
invokes S, F and H only. G - the successor of the failed node - stays
pending and is never invoked, although the claim says the traversal
continues depth-first into the successors of the failed node. -/
theorem C1_counterexample :
    freshTrace (pSwallow (Val.vnat 1) "boom" (Val.vnat 2) (Val.vnat 3)) [] false =
      ["S", "F", "H"] ∧
    statusOf (freshResult (pSwallow (Val.vnat 1) "boom" (Val.vnat 2) (Val.vnat 3)) [] false)
      "G" = some "pending" ∧
    statusOf (freshResult (pSwallow (Val.vnat 1) "boom" (Val.vnat 2) (Val.vnat 3)) [] false)
      "F" = some "failed" ∧
    (freshResult (pSwallow (Val.vnat 1) "boom" (Val.vnat 2) (Val.vnat 3)) [] false).status =
      "completed" :=
  ⟨rfl, rfl, rfl, rfl⟩

/-- C5: FAILS on the code as stated; amended version. When the traversal
reaches a node that is already completed within this run, the invocation is
skipped and the traversal returns immediately - it does NOT proceed into
the successors of the skipped node; it continues with the remaining
worklist only. -/
theorem C5_completed_skip_no_descent (p : Pipeline) (fuel1 : Nat) (name : String)
    (rest : List String) (soe : Bool) (st : ExecState)
    (h : ((alookup st.nodeStates name).getD NodeState.init).status = "completed") :
    Pipeline.execute_nodes p (Nat.succ fuel1) (name :: rest) soe st =
      Pipeline.execute_nodes p fuel1 rest soe st :=
  execute_nodes_skip p fuel1 name rest soe st h

/-- C5 witness: the skip theorem applied to a state in which node F is
already completed. -/
theorem C5_witness :
    ((alookup stCompletedW.nodeStates "F").getD NodeState.init).status = "completed" ∧
    Pipeline.execute_nodes pFailW (Nat.succ 0) ["F"] true stCompletedW =
      Pipeline.execute_nodes pFailW 0 [] true stCompletedW :=
  ⟨rfl, C5_completed_skip_no_descent pFailW 0 "F" [] true stCompletedW rfl⟩

/-- C5 counterexample to the claim as stated: S feeds F then B, B feeds F,
F feeds G, and G always raises; stopOnError is false. On the first visit F
completes and its successor G is invoked (and fails). When B then reaches
F again, F is skipped; under the claim the traversal would proceed into the
successors of F and re-invoke the non-completed G, producing a second G
invocation after B. The code instead returns at F: the trace ends at B and
G is invoked exactly once. -/
theorem C5_counterexample :
    freshTrace (pRevisit (Val.vnat 1) (Val.vnat 2) (Val.vnat 3) "boom") [] false =
      ["S", "F", "G", "B"] ∧
    ((freshResult (pRevisit (Val.vnat 1) (Val.vnat 2) (Val.vnat 3) "boom") [] false).executionLog.map
        LogEntry.node) = ["S", "F", "G", "B"] ∧
    (freshTrace (pRevisit (Val.vnat 1) (Val.vnat 2) (Val.vnat 3) "boom") [] false).count "G" = 1 :=
  ⟨rfl, rfl, rfl⟩

/-- C4: FAILS on the code as stated; amended version. `add_node` performs a
plain dict assignment with no duplicate check: adding a node whose name
equals an already registered name never fails, and the new node silently
replaces the existing registration. -/
theorem C4_add_node_replaces (p : Pipeline) (node : WorkflowNode) (isStart : Bool) :
    alookup (p.add_node node isStart).nodes node.name = some node := by
  simp [Pipeline.add_node, alookup_ainsert]

/-- C4 counterexample to the claim as stated: adding two nodes named n in
turn raises nothing - `add_node` is total - and the second registration
replaces the first (the table keeps one entry, carrying the description of
the second node, not the first). -/
theorem C4_counterexample :
    (alookup pDup.nodes "n").map (fun n => n.description) = some "second" ∧
    pDup.nodes.length = 1 :=
  ⟨rfl, rfl⟩

/-- C2: FAILS on the code as stated; amended version. For any chain A to B
where the task of A succeeds with any value and the task of B always raises
any message, executing with stopOnError true logs, in temporal order (the
timestamps 3, 6, 7 are strictly increasing): one completed entry for the
invocation of A, one failed entry for the invocation of B, and then one
MORE failed entry for A - appended as the failure propagates back through
the enclosing invocation of A - even though A itself succeeded. The trace
shows exactly one invocation attempt for A and one for B, so the log has
one entry per invocation attempt plus one per ancestor the failure passes
through. -/
theorem C2_propagation_adds_ancestor_entries (vA vC : Val) (m : String) :
    (freshResult (pChainBfail vA m vC) [] true).executionLog =
      [⟨3, "A", "completed", some 1, none⟩,
       ⟨6, "B", "failed", none, some ("Node B failed: " ++ m)⟩,
       ⟨7, "A", "failed", none, some ("Node B failed: " ++ m)⟩] ∧
    freshTrace (pChainBfail vA m vC) [] true = ["A", "B"] :=
  ⟨rfl, rfl⟩

/-- C2 counterexample to the claim as stated: in the chain A to B to C with
B always raising and stopOnError true, the single task failure of B
produces TWO failed log entries - one for B and one more for A, a node
whose own invocation succeeded - so the log does not have exactly one entry
per invocation attempt. -/
theorem C2_counterexample :
    ((freshResult (pChainBfail (Val.vnat 1) "boom" (Val.vnat 3)) [] true).executionLog.map
        (fun en => (en.node, en.status))) =
      [("A", "completed"), ("B", "failed"), ("A", "failed")] ∧
    ((freshResult (pChainBfail (Val.vnat 1) "boom" (Val.vnat 3)) [] true).executionLog.filter
        (fun en => en.status == "failed")).length = 2 ∧
    freshTrace (pChainBfail (Val.vnat 1) "boom" (Val.vnat 3)) [] true = ["A", "B"] :=
  ⟨rfl, rfl, rfl⟩

/-- C6: in a diamond graph - S feeding P and Q which both feed F - one
execution invokes F exactly once, whichever order the two branches were
declared in; F ends completed. -/
theorem C6_diamond_invokes_final_once (vS vP vQ vF : Val) :
    freshTrace (pDiamond vS vP vQ vF) [] true = ["S", "P", "F", "Q"] ∧
    (freshTrace (pDiamond vS vP vQ vF) [] true).count "F" = 1 ∧
    freshTrace (pDiamondRev vS vP vQ vF) [] true = ["S", "Q", "F", "P"] ∧
    (freshTrace (pDiamondRev vS vP vQ vF) [] true).count "F" = 1 ∧
    statusOf (freshResult (pDiamond vS vP vQ vF) [] true) "F" = some "completed" := by
  have hp : pDiamond vS vP vQ vF =
      ⟨"diamond", "",
       [("S", ⟨"S", constTask vS, [], "", ["P", "Q"]⟩),
        ("P", ⟨"P", constTask vP, [], "", ["F"]⟩),
        ("Q", ⟨"Q", constTask vQ, [], "", ["F"]⟩),
        ("F", ⟨"F", constTask vF, [], "", []⟩)],
       some "S"⟩ := rfl
  have hq : pDiamondRev vS vP vQ vF =
      ⟨"diamond", "",
       [("S", ⟨"S", constTask vS, [], "", ["Q", "P"]⟩),
        ("P", ⟨"P", constTask vP, [], "", ["F"]⟩),
        ("Q", ⟨"Q", constTask vQ, [], "", ["F"]⟩),
        ("F", ⟨"F", constTask vF, [], "", []⟩)],
       some "S"⟩ := rfl
  have h1 : freshTrace (pDiamond vS vP vQ vF) [] true = ["S", "P", "F", "Q"] := by
    rw [hp]; rfl
  have h2 : freshTrace (pDiamondRev vS vP vQ vF) [] true = ["S", "Q", "F", "P"] := by
    rw [hq]; rfl
  have h3 : statusOf (freshResult (pDiamond vS vP vQ vF) [] true) "F" = some "completed" := by
    rw [freshResult, execFresh, hp]; rfl
  exact ⟨h1, by rw [h1]; rfl, h2, by rw [h2]; rfl, h3⟩

/-- C9: in the chain A to B to C where the task of B always raises,
executing with stopOnError true leaves A completed, B failed, C pending and
never invoked, and the overall pipeline status is the string failed. -/
theorem C9_chain_stop_on_error (vA vC : Val) (m : String) :
    statusOf (freshResult (pChainBfail vA m vC) [] true) "A" = some "completed" ∧
    statusOf (freshResult (pChainBfail vA m vC) [] true) "B" = some "failed" ∧
    statusOf (freshResult (pChainBfail vA m vC) [] true) "C" = some "pending" ∧
    (freshResult (pChainBfail vA m vC) [] true).status = "failed" ∧
    freshTrace (pChainBfail vA m vC) [] true = ["A", "B"] :=
  ⟨rfl, rfl, rfl, rfl, rfl⟩

/-- C7: per-invocation parameter resolution. The effective input mapping
built by `WorkflowNode.execute` is the static inputs overlaid on the
context (a static input wins on key collision, any other key falls through
to the context); the keyword arguments passed to the task are exactly the
restriction of that mapping to the declared parameter names (a declared
name reads through, any undeclared key is absent); and the filtered
arguments never contain an undeclared keyword, so the unexpected-keyword
error of the call can never fire, whatever extra keys the context holds. -/
theorem C7_parameter_filtering (n : WorkflowNode) (context : Dict)
    (hn : (n.inputs.map Prod.fst).Nodup) :
    (∀ k, alookup (dupdate context n.inputs) k =
        match alookup n.inputs k with
        | some v => some v
        | none => alookup context k) ∧
    (∀ k, alookup (filterInputs n.function.params (dupdate context n.inputs)) k =
        if ∃ p ∈ n.function.params, p.name = k
        then alookup (dupdate context n.inputs) k else none) ∧
    ((filterInputs n.function.params (dupdate context n.inputs)).any
        fun kv => !(n.function.params.any fun p => p.name == kv.1)) = false :=
  ⟨fun k => alookup_dupdate context n.inputs hn k,
   fun k => alookup_filterInputs n.function.params (dupdate context n.inputs) k,
   filterInputs_declared n.function.params (dupdate context n.inputs)⟩

/-- C7 witness: the filtering theorem applied to a task declaring a and b,
a static input b, and a context holding a, b, c and d: the static b wins,
and the undeclared key c is filtered out. -/
theorem C7_witness :
    ((nodeAB.inputs.map Prod.fst).Nodup) ∧
    alookup (dupdate ctxABCD nodeAB.inputs) "b" =
      (match alookup nodeAB.inputs "b" with
       | some v => some v
       | none => alookup ctxABCD "b") ∧
    alookup (filterInputs nodeAB.function.params (dupdate ctxABCD nodeAB.inputs)) "c" =
      (if ∃ p ∈ nodeAB.function.params, p.name = "c"
       then alookup (dupdate ctxABCD nodeAB.inputs) "c" else none) ∧
    ((filterInputs nodeAB.function.params (dupdate ctxABCD nodeAB.inputs)).any
        fun kv => !(nodeAB.function.params.any fun p => p.name == kv.1)) = false :=
  ⟨by decide,
   (C7_parameter_filtering nodeAB ctxABCD (by decide)).1 "b",
   (C7_parameter_filtering nodeAB ctxABCD (by decide)).2.1 "c",
   (C7_parameter_filtering nodeAB ctxABCD (by decide)).2.2⟩

/-- C8: when the task returns normally with a non-mapping value, the value
is wrapped under the sentinel key result, the node status becomes
completed, and the invocation returns that one-key mapping, which
`_execute_node` then merges into the shared context through `dupdate`;
merging overwrites a same-named existing context key with the new output
value (last writer wins), and in general a merged mapping with unique keys
wins over the context on every one of its keys. -/
theorem C8_wrap_plain_and_merge (n : WorkflowNode) (prev : NodeState) (context : Dict)
    (clock : Nat) (v : Val)
    (hcall : callTask n.function
        (filterInputs n.function.params (dupdate context n.inputs)) =
        Except.ok (PyVal.plain v)) :
    n.execute prev context clock =
      ({ prev with status := "completed", startTime := some clock,
                   outputs := [("result", v)], endTime := some (clock + 1) },
       clock + 2, Except.ok [("result", v)]) ∧
    (∀ d k, alookup (dupdate d [("result", v)]) k =
        if "result" = k then some v else alookup d k) ∧
    (∀ (c outs : Dict), (outs.map Prod.fst).Nodup → ∀ k,
        alookup (dupdate c outs) k =
          match alookup outs k with
          | some w => some w
          | none => alookup c k) := by
  refine ⟨?_, ?_, ?_⟩
  · simp only [WorkflowNode.execute, hcall]
  · intro d k
    have hone : dupdate d [("result", v)] = ainsert d "result" v := rfl
    rw [hone, alookup_ainsert]
  · intro c outs ho k
    exact alookup_dupdate c outs ho k

/-- C8 witness: the wrapping theorem applied to a task returning the plain
value 5, and the merge property applied to a context that already holds a
result key, which the new output overwrites. -/
theorem C8_witness :
    callTask nodeW8.function
        (filterInputs nodeW8.function.params (dupdate [] nodeW8.inputs)) =
      Except.ok (PyVal.plain (Val.vnat 5)) ∧
    nodeW8.execute NodeState.init [] 0 =
      ((⟨"completed", none, [("result", Val.vnat 5)], some 0, some 1⟩ : NodeState), 2,
       Except.ok [("result", Val.vnat 5)]) ∧
    alookup (dupdate [("x", Val.vnat 9), ("result", Val.vnat 0)]
        [("result", Val.vnat 5)]) "result" =
      (if "result" = "result" then some (Val.vnat 5)
       else alookup [("x", Val.vnat 9), ("result", Val.vnat 0)] "result") :=
  ⟨rfl,
   (C8_wrap_plain_and_merge nodeW8 NodeState.init [] 0 (Val.vnat 5) rfl).1,
   (C8_wrap_plain_and_merge nodeW8 NodeState.init [] 0 (Val.vnat 5) rfl).2.1
     [("x", Val.vnat 9), ("result", Val.vnat 0)] "result"⟩
